import Mathlib

/-!
Shallow embedding of `src/bipartite_embeddings/evaluator.py` (the `Evaluator`
class) together with the enums of `src/livesketch/constants.py`.

Modelling conventions:
* numpy arrays of floats are modelled as `List (List ℚ)` (row-major);
  1-D vectors as `List ℚ`.
* The external collaborators (the sample splitter `get_train_test_samples`,
  the embedding model behaviour, sklearn's `cosine_similarity`,
  the classifier's `predict_proba`, and sklearn's `roc_auc_score`) are
  arbitrary functions bundled in an `Externals` record: the evaluator code
  under verification only orchestrates them.
* Mutable state touched by the evaluator (the memoized `_samples` cache, the
  embedding model's fitted state, the classifier's fitted state) is threaded
  explicitly through a `PipeState` record; call counters record how often the
  external splitter / `fit` methods were invoked.
* Python exceptions are modelled with `Except EvalError`; the state component
  of a result reflects the mutations performed before the raise.
-/

/-- A networkx-style undirected graph: a node count and an edge list. -/
structure Graph : Type where
  nodes : ℕ
  edges : List (ℕ × ℕ)
  deriving DecidableEq

/-- `networkx.Graph.has_edge(u, v)` for an undirected graph: the edge is
present in either orientation. -/
def Graph.has_edge (g : Graph) (u v : ℕ) : Bool :=
  g.edges.any (fun e => (e.1 == u && e.2 == v) || (e.1 == v && e.2 == u))

/-- The `SampleType` enum of `constants.py`. -/
inductive SampleType : Type where
  | TRAIN
  | TEST
  deriving DecidableEq

/-- The `EdgeOperator` enum of `constants.py`. -/
inductive EdgeOperator : Type where
  | CONCAT
  | HADAMARD
  | AVERAGE
  deriving DecidableEq

/-- The `SimilarityMeasure` enum of `constants.py`. -/
inductive SimilarityMeasure : Type where
  | COSINE
  | HAMMING
  | DOT_PRODUCT
  deriving DecidableEq

/-- The errors the evaluator can raise.  `configError` is the `ValueError` of
`get_roc_auc_score`; `unknownOperator` is the `ValueError` of
`get_edge_embeddings` (its payload is the offending operator slot, mirroring
the f-string that interpolates `self.embedding_operator`, where `None` prints
as None); `argpartitionOutOfRange` is the numpy error raised by
`np.argpartition(a, -100)` when `a` has fewer than 100 entries. -/
inductive EvalError : Type where
  | configError
  | unknownOperator (op : Option EdgeOperator)
  | argpartitionOutOfRange
  deriving DecidableEq

/-- The sample bundle produced by the external `get_train_test_samples`
splitter (a `DotDict`), with the six fields the evaluator reads. -/
structure Bundle : Type where
  G_train : Graph
  G_test : Graph
  edge_ids_train : List (ℕ × ℕ)
  edge_ids_test : List (ℕ × ℕ)
  edge_labels_train : List ℕ
  edge_labels_test : List ℕ
  deriving DecidableEq

/-- Modelled from the spec: `DotDict` and `get_train_test_samples` live in
`bipartite_embeddings/utils.py`, which is not under `src/`.  Per the spec the
splitter returns a bundle carrying the six fields above, so as a dict it is
nonempty; Python truthiness of a nonempty dict is `True`.  This is the
truthiness the `if not self._samples` test in the `samples` property sees for
a present bundle. -/
def bundleTruthy (_ : Bundle) : Bool := true

/-- The constructor arguments of `Evaluator.__init__` that the methods read
directly.  The embedding model object itself is split between `Externals`
(its input/output behaviour) and `PipeState.fittedOn` (its mutable fitted
state); the classifier object is likewise split, with only its presence
recorded here (`classifier = none` models passing `classifier=None`). -/
structure Evaluator : Type where
  graph : Graph
  classifier : Option Unit
  embedding_operator : Option EdgeOperator

/-- The external collaborators, as arbitrary (deterministic) functions:
* `get_train_test_samples` — the splitter from `utils.py`;
* `embedOf g` — what `embedding_model.get_embedding()` returns after
  `embedding_model.fit(g)`;
* `embedOfUnfitted` — what `get_embedding()` would return before any fit;
* `cosine_similarity` — sklearn's pairwise cosine similarity, as an
  entry-level function of the embedding matrix;
* `predict_proba1` — column 1 of `classifier.predict_proba(test)` after
  `classifier.fit(train, labels)`;
* `roc_auc_score` — sklearn's ROC-AUC. -/
structure Externals : Type where
  get_train_test_samples : Graph → Bundle
  embedOf : Graph → List (List ℚ)
  embedOfUnfitted : List (List ℚ)
  cosine_similarity : List (List ℚ) → ℕ → ℕ → ℚ
  predict_proba1 : List (List ℚ) → List ℕ → List (List ℚ) → List ℚ
  roc_auc_score : List ℕ → List ℚ → ℚ

/-- The mutable state threaded through an evaluation: the `_samples` cache of
the `Evaluator`, the fitted state of the shared embedding model, and the
fitted state of the classifier, plus call counters for the external calls. -/
structure PipeState : Type where
  samplesCache : Option Bundle
  splitterCalls : ℕ
  fittedOn : Option Graph
  modelFitCalls : ℕ
  classifierFitted : Option (List (List ℚ) × List ℕ)
  classifierFitCalls : ℕ
  deriving DecidableEq

/-- A fresh state: nothing cached, nothing fitted, no external calls yet. -/
def initState : PipeState :=
  { samplesCache := none, splitterCalls := 0, fittedOn := none,
    modelFitCalls := 0, classifierFitted := none, classifierFitCalls := 0 }

/-- `embedding_model.fit(g)`: overwrites the model's fitted state. -/
def modelFit (st : PipeState) (g : Graph) : PipeState :=
  { st with fittedOn := some g, modelFitCalls := st.modelFitCalls + 1 }

/-- `embedding_model.get_embedding()`: reads the current fitted state. -/
def modelGetEmbedding (ext : Externals) (st : PipeState) : List (List ℚ) :=
  match st.fittedOn with
  | some g => ext.embedOf g
  | none => ext.embedOfUnfitted

/-- `classifier.fit(x, y)`: overwrites the classifier's fitted state. -/
def classifierFit (st : PipeState) (x : List (List ℚ)) (y : List ℕ) :
    PipeState :=
  { st with classifierFitted := some (x, y),
            classifierFitCalls := st.classifierFitCalls + 1 }

/-- The `samples` property:
`if not self._samples: self._samples = self.get_samples()`; then return
`self._samples`.  An absent cache (`None`) is falsy; a cached bundle has the
truthiness of a `DotDict` (see `bundleTruthy`). -/
def samplesProp (ev : Evaluator) (ext : Externals) (st : PipeState) :
    Bundle × PipeState :=
  match st.samplesCache with
  | some b =>
      if bundleTruthy b then (b, st)
      else
        let b2 := ext.get_train_test_samples ev.graph
        (b2, { st with samplesCache := some b2,
                       splitterCalls := st.splitterCalls + 1 })
  | none =>
      let b2 := ext.get_train_test_samples ev.graph
      (b2, { st with samplesCache := some b2,
                     splitterCalls := st.splitterCalls + 1 })

/-- `Evaluator.get_node_embeddings(sample_type)`: fit the embedding model on
the train subgraph, the test subgraph, or the full graph depending on the
optional discriminator, then read the freshly fitted embedding. -/
def get_node_embeddings (ev : Evaluator) (ext : Externals) (st : PipeState)
    (sample_type : Option SampleType) : List (List ℚ) × PipeState :=
  match sample_type with
  | some SampleType.TRAIN =>
      let ps := samplesProp ev ext st
      let st1 := modelFit ps.2 ps.1.G_train
      (modelGetEmbedding ext st1, st1)
  | some SampleType.TEST =>
      let ps := samplesProp ev ext st
      let st1 := modelFit ps.2 ps.1.G_test
      (modelGetEmbedding ext st1, st1)
  | none =>
      let st1 := modelFit st ev.graph
      (modelGetEmbedding ext st1, st1)

/-- `np.concatenate((a, b))` on 1-D vectors. -/
def concatOp (u v : List ℚ) : List ℚ := u ++ v

/-- `np.multiply(a, b)` on 1-D vectors: element-wise product. -/
def hadamardOp (u v : List ℚ) : List ℚ := List.zipWith (fun a b => a * b) u v

/-- `(a + b) / 2` on 1-D vectors: element-wise mean. -/
def averageOp (u v : List ℚ) : List ℚ :=
  List.zipWith (fun a b => (a + b) / 2) u v

/-- The body of the three list comprehensions of `get_edge_embeddings`:
combine the rows `node_embeddings[edge[0]]` and `node_embeddings[edge[1]]`
with the selected operator. -/
def opApply (op : EdgeOperator) (node_embeddings : List (List ℚ))
    (e : ℕ × ℕ) : List ℚ :=
  match op with
  | EdgeOperator.CONCAT =>
      concatOp (node_embeddings.getD e.1 []) (node_embeddings.getD e.2 [])
  | EdgeOperator.HADAMARD =>
      hadamardOp (node_embeddings.getD e.1 []) (node_embeddings.getD e.2 [])
  | EdgeOperator.AVERAGE =>
      averageOp (node_embeddings.getD e.1 []) (node_embeddings.getD e.2 [])

/-- The node-embedding matrix `get_edge_embeddings` starts from: the ternary
`self.train_node_embeddings if sample_type == SampleType.TRAIN else
self.test_node_embeddings` (evaluated first, accessing `samples` inside). -/
def nodeEmbeddingsOf (ev : Evaluator) (ext : Externals) (st : PipeState)
    (sample_type : SampleType) : List (List ℚ) :=
  (get_node_embeddings ev ext st (some sample_type)).1

/-- The state after `get_edge_embeddings` has computed the node embeddings
and re-read the (now cached) `samples` property for the edge-id sequence. -/
def stateAfterSelect (ev : Evaluator) (ext : Externals) (st : PipeState)
    (sample_type : SampleType) : PipeState :=
  (samplesProp ev ext (get_node_embeddings ev ext st (some sample_type)).2).2

/-- The edge-id sequence `get_edge_embeddings` maps over: the ternary
`self.samples.edge_ids_train if sample_type == SampleType.TRAIN else
self.samples.edge_ids_test` (evaluated after the node embeddings). -/
def edgeIdsOf (ev : Evaluator) (ext : Externals) (st : PipeState)
    (sample_type : SampleType) : List (ℕ × ℕ) :=
  let b := (samplesProp ev ext
    (get_node_embeddings ev ext st (some sample_type)).2).1
  match sample_type with
  | SampleType.TRAIN => b.edge_ids_train
  | SampleType.TEST => b.edge_ids_test

/-- `Evaluator.get_edge_embeddings(sample_type)`: compute the node embeddings
(refitting the shared model), pick the matching edge-id sequence, then
dispatch on `self.embedding_operator`; the catch-all raises
`ValueError(f"Unknown edge operator: ...")`.  The `EdgeOperator` enum is
closed, so the unmatched cases are exactly the unset slot. -/
def get_edge_embeddings (ev : Evaluator) (ext : Externals) (st : PipeState)
    (sample_type : SampleType) :
    Except EvalError (List (List ℚ)) × PipeState :=
  let node_embeddings := nodeEmbeddingsOf ev ext st sample_type
  let samples_list := edgeIdsOf ev ext st sample_type
  let st2 := stateAfterSelect ev ext st sample_type
  match ev.embedding_operator with
  | some op => (Except.ok (samples_list.map (opApply op node_embeddings)), st2)
  | none => (Except.error (EvalError.unknownOperator ev.embedding_operator), st2)

/-- `Evaluator.get_roc_auc_score()`: guard
`if not self.classifier or not self.embedding_operator: raise ValueError(...)`
(a classifier object and an `EdgeOperator` member are truthy, `None` is
falsy), then fit the classifier on the train edge embeddings, score the test
edge embeddings via `predict_proba[:, 1]`, and return the ROC-AUC. -/
def get_roc_auc_score (ev : Evaluator) (ext : Externals) (st : PipeState) :
    Except EvalError ℚ × PipeState :=
  if ev.classifier.isNone || ev.embedding_operator.isNone then
    (Except.error EvalError.configError, st)
  else
    let r1 := get_edge_embeddings ev ext st SampleType.TRAIN
    match r1.1 with
    | Except.error e => (Except.error e, r1.2)
    | Except.ok train_edge_embeddings =>
        let ps := samplesProp ev ext r1.2
        let st2 := classifierFit ps.2 train_edge_embeddings
          ps.1.edge_labels_train
        let r2 := get_edge_embeddings ev ext st2 SampleType.TEST
        match r2.1 with
        | Except.error e => (Except.error e, r2.2)
        | Except.ok test_edge_embeddings =>
            let predictions := ext.predict_proba1 train_edge_embeddings
              ps.1.edge_labels_train test_edge_embeddings
            let ps2 := samplesProp ev ext r2.2
            (Except.ok (ext.roc_auc_score ps2.1.edge_labels_test predictions),
             ps2.2)

/-- The HAMMING branch of `get_precision_at_100`:
`(node_embeddings[:, None, :] == node_embeddings).sum(2)` — the number of
coordinates on which rows `i` and `j` agree (an agreement count). -/
def hammingSim (node_embeddings : List (List ℚ)) (i j : ℕ) : ℚ :=
  (List.zipWith (fun a b => if a = b then (1 : ℚ) else 0)
    (node_embeddings.getD i []) (node_embeddings.getD j [])).sum

/-- The DOT_PRODUCT branch: `np.dot(node_embeddings, node_embeddings.T)`,
entry (i, j) = dot product of rows i and j. -/
def dotSim (node_embeddings : List (List ℚ)) (i j : ℕ) : ℚ :=
  (List.zipWith (fun a b => a * b)
    (node_embeddings.getD i []) (node_embeddings.getD j [])).sum

/-- The similarity-matrix dispatch of `get_precision_at_100`.  The
`SimilarityMeasure` enum is closed, so the `raise ValueError` catch-all for an
unknown measure is unreachable for a typed argument and has no arm here. -/
def simOf (similarity_measure : SimilarityMeasure) (ext : Externals)
    (node_embeddings : List (List ℚ)) : ℕ → ℕ → ℚ :=
  match similarity_measure with
  | SimilarityMeasure.COSINE => ext.cosine_similarity node_embeddings
  | SimilarityMeasure.HAMMING => hammingSim node_embeddings
  | SimilarityMeasure.DOT_PRODUCT => dotSim node_embeddings

/-- `np.tril(similarities, k=-1)` entry-wise: keep entries strictly below the
diagonal (column < row), zero the diagonal and the upper triangle. -/
def trilStrict (sim : ℕ → ℕ → ℚ) (i j : ℕ) : ℚ :=
  if j < i then sim i j else 0

/-- The raveled (row-major flattened) masked matrix of an `n × n` similarity
matrix: flat index `k` holds entry `(k / n, k % n)` of `np.tril(sim, k=-1)`. -/
def maskedRavel (n : ℕ) (sim : ℕ → ℕ → ℚ) (k : ℕ) : ℚ :=
  trilStrict sim (k / n) (k % n)

/-- The ranking order on flat indices realised by
`argpartition(...)[-100:]` followed by `argsort` and `[::-1]`: larger masked
value first.  numpy leaves the order among equal values unspecified; the
model fixes the (observationally irrelevant for the proved claims) tie-break
to ascending flat index, a deterministic total order. -/
def rankRel (v : ℕ → ℚ) (a b : ℕ) : Prop :=
  v b < v a ∨ (v a = v b ∧ a ≤ b)

instance rankRelDecidable (v : ℕ → ℚ) : DecidableRel (rankRel v) := by
  intro a b
  unfold rankRel
  infer_instance

instance rankRelTotal (v : ℕ → ℚ) : IsTotal ℕ (rankRel v) := by
  constructor
  intro a b
  unfold rankRel
  rcases lt_trichotomy (v a) (v b) with h | h | h
  · exact Or.inr (Or.inl h)
  · rcases Nat.le_total a b with hab | hab
    · exact Or.inl (Or.inr ⟨h, hab⟩)
    · exact Or.inr (Or.inr ⟨h.symm, hab⟩)
  · exact Or.inl (Or.inl h)

instance rankRelTrans (v : ℕ → ℚ) : IsTrans ℕ (rankRel v) := by
  constructor
  intro a b c hab hbc
  unfold rankRel at *
  rcases hab with h1 | ⟨h1, h1n⟩
  · rcases hbc with h2 | ⟨h2, _⟩
    · exact Or.inl (h2.trans h1)
    · exact Or.inl (h2 ▸ h1)
  · rcases hbc with h2 | ⟨h2, h2n⟩
    · exact Or.inl (h1 ▸ h2)
    · exact Or.inr ⟨h1.trans h2, h1n.trans h2n⟩

/-- The 100 selected flat indices, best first: the model of
`indices = np.argpartition(similarities.ravel(), -100)[-100:]`,
`indices = indices[np.argsort(similarities.ravel()[indices])][::-1]`
over the `n * n` flat indices of the masked matrix. -/
def topIndices (n : ℕ) (sim : ℕ → ℕ → ℚ) : List ℕ :=
  (List.insertionSort (rankRel (maskedRavel n sim)) (List.range (n * n))).take
    100

/-- The ranked `(row, column)` node pairs scored by `get_precision_at_100`:
`np.unravel_index` of each selected flat index, in ranked order. -/
def top100PairsList (n : ℕ) (sim : ℕ → ℕ → ℚ) : List (ℕ × ℕ) :=
  (topIndices n sim).map (fun k => (k / n, k % n))

/-- The selection step including numpy's precondition:
`np.argpartition(a, -100)` raises when `a` has fewer than 100 entries. -/
def top100Pairs (n : ℕ) (sim : ℕ → ℕ → ℚ) :
    Except EvalError (List (ℕ × ℕ)) :=
  if n * n < 100 then Except.error EvalError.argpartitionOutOfRange
  else Except.ok (top100PairsList n sim)

/-- The full-graph node embeddings `get_precision_at_100` starts from (the
`performance_measuring` context manager only times this step and is not
modelled). -/
def nodeEmbeddingsFull (ev : Evaluator) (ext : Externals) (st : PipeState) :
    List (List ℚ) :=
  (get_node_embeddings ev ext st none).1

/-- `Evaluator.get_precision_at_100(similarity_measure)`: embed the full
graph, build the similarity matrix, mask it to the strict lower triangle,
select and rank the top 100 flat positions, map them back to node pairs,
count those that are edges of the original graph (`self.graph.has_edge`), and
return `tp / 100`.  The `print` diagnostics are side effects with no bearing
on the result and are not modelled. -/
def get_precision_at_100 (ev : Evaluator) (ext : Externals) (st : PipeState)
    (similarity_measure : SimilarityMeasure) :
    Except EvalError ℚ × PipeState :=
  let p := get_node_embeddings ev ext st none
  let node_embeddings := p.1
  let n := node_embeddings.length
  match top100Pairs n (simOf similarity_measure ext node_embeddings) with
  | Except.error e => (Except.error e, p.2)
  | Except.ok pairs =>
      (Except.ok
        (((pairs.countP (fun q => ev.graph.has_edge q.1 q.2) : ℕ) : ℚ) / 100),
       p.2)

/-! Concrete instances used by witnesses and counterexamples. -/

/-- A fixed 10 × 4 embedding matrix (all zeros): the shape of end-to-end
scenario 1 of the spec. -/
def zeroEmb : List (List ℚ) := List.replicate 10 (List.replicate 4 0)

/-- A 10-node graph with a couple of edges. -/
def g10 : Graph := { nodes := 10, edges := [(0, 1), (1, 2), (5, 3)] }

/-- A small bundle a stub splitter can return. -/
def bundle0 : Bundle :=
  { G_train := { nodes := 2, edges := [(0, 1)] }
    G_test := { nodes := 2, edges := [] }
    edge_ids_train := [(0, 1)]
    edge_ids_test := [(1, 0)]
    edge_labels_train := [1]
    edge_labels_test := [0] }

/-- Stub externals: the splitter always yields `bundle0`; the embedding model
always reports the fixed 10 × 4 zero matrix. -/
def extC : Externals :=
  { get_train_test_samples := fun _ => bundle0
    embedOf := fun _ => zeroEmb
    embedOfUnfitted := []
    cosine_similarity := fun _ _ _ => 0
    predict_proba1 := fun _ _ _ => []
    roc_auc_score := fun _ _ => 0 }

/-- An evaluator over `g10` with no classifier and no edge operator. -/
def evC : Evaluator :=
  { graph := g10, classifier := none, embedding_operator := none }

/-- An evaluator over `g10` with a classifier and the CONCAT operator. -/
def evD : Evaluator :=
  { graph := g10, classifier := some (), embedding_operator := some EdgeOperator.CONCAT }

/-- A 2 × 2 embedding matrix with distinct rows, for shape witnesses. -/
def smallEmb : List (List ℚ) := [[1, 2], [3, 4]]

/-- Externals whose embedding model reports `smallEmb`. -/
def extD : Externals :=
  { get_train_test_samples := fun _ => bundle0
    embedOf := fun _ => smallEmb
    embedOfUnfitted := []
    cosine_similarity := fun _ _ _ => 0
    predict_proba1 := fun _ _ _ => []
    roc_auc_score := fun _ _ => 0 }

/-! Theorems. -/

/-- C7: for every similarity matrix, every entry of the masked matrix on or
above the diagonal is exactly zero, and every entry strictly below the
diagonal is retained unchanged from the unmasked matrix. -/
theorem tril_mask_entries (sim : ℕ → ℕ → ℚ) (i j : ℕ) :
    (i ≤ j → trilStrict sim i j = 0) ∧ (j < i → trilStrict sim i j = sim i j) := by
  constructor
  · intro h
    unfold trilStrict
    rw [if_neg (Nat.not_lt.mpr h)]
  · intro h
    unfold trilStrict
    rw [if_pos h]

/-- Witness for C7 at concrete entries (2, 5) (above diagonal) and
(5, 2) (below diagonal) of the constant-37 matrix. -/
theorem tril_mask_entries_witness :
    ((2 : ℕ) ≤ 5 ∧ trilStrict (fun _ _ => 37) 2 5 = 0)
    ∧ ((2 : ℕ) < 5 ∧ trilStrict (fun _ _ => 37) 5 2 = 37) :=
  ⟨⟨by decide, (tril_mask_entries (fun _ _ => 37) 2 5).1 (by decide)⟩,
   ⟨by decide, (tril_mask_entries (fun _ _ => 37) 5 2).2 (by decide)⟩⟩

/-- C9: HADAMARD and AVERAGE are commutative in the node pair; CONCAT is not
commutative in general, and for equal-length vectors commutes exactly when
the two vectors are equal. -/
theorem operator_commutativity :
    (∀ u v : List ℚ, hadamardOp u v = hadamardOp v u)
    ∧ (∀ u v : List ℚ, averageOp u v = averageOp v u)
    ∧ (∃ u v : List ℚ, concatOp u v ≠ concatOp v u)
    ∧ (∀ u v : List ℚ, u.length = v.length →
        (concatOp u v = concatOp v u ↔ u = v)) := by
  refine ⟨?_, ?_, ?_, ?_⟩
  · intro u v
    exact List.zipWith_comm_of_comm _ (fun a b => mul_comm a b) u v
  · intro u v
    exact List.zipWith_comm_of_comm _ (fun a b => by rw [add_comm]) u v
  · exact ⟨[0], [1], by decide⟩
  · intro u v hlen
    constructor
    · intro h
      exact (List.append_inj h hlen).1
    · intro h
      rw [h]

/-- Witness for C9 at the concrete equal-length pair [1, 2], [3, 4]. -/
theorem operator_commutativity_witness :
    ([(1 : ℚ), 2] : List ℚ).length = ([3, 4] : List ℚ).length
    ∧ (concatOp [(1 : ℚ), 2] [3, 4] = concatOp [3, 4] [(1 : ℚ), 2]
        ↔ ([(1 : ℚ), 2] : List ℚ) = [3, 4]) :=
  ⟨by decide, operator_commutativity.2.2.2 [1, 2] [3, 4] (by decide)⟩

/-- C5: with an empty cache, the first access to `samples` invokes the
splitter (exactly one more splitter call) and caches its result; a second
access returns the same bundle with the state unchanged (no recomputation),
whatever bundle the splitter produced. -/
theorem samples_memoized (ev : Evaluator) (ext : Externals) (st : PipeState)
    (h : st.samplesCache = none) :
    (samplesProp ev ext st).1 = ext.get_train_test_samples ev.graph
    ∧ (samplesProp ev ext st).2.splitterCalls = st.splitterCalls + 1
    ∧ (samplesProp ev ext (samplesProp ev ext st).2).1
        = (samplesProp ev ext st).1
    ∧ (samplesProp ev ext (samplesProp ev ext st).2).2
        = (samplesProp ev ext st).2 := by
  simp [samplesProp, h, bundleTruthy]

/-- Witness for C5: the concrete evaluator `evC` with stub externals and a
fresh state. -/
theorem samples_memoized_witness :
    initState.samplesCache = none
    ∧ ((samplesProp evC extC initState).1
          = extC.get_train_test_samples evC.graph
        ∧ (samplesProp evC extC initState).2.splitterCalls
          = initState.splitterCalls + 1
        ∧ (samplesProp evC extC (samplesProp evC extC initState).2).1
          = (samplesProp evC extC initState).1
        ∧ (samplesProp evC extC (samplesProp evC extC initState).2).2
          = (samplesProp evC extC initState).2) :=
  ⟨rfl, samples_memoized evC extC initState rfl⟩

/-- C6: `get_edge_embeddings` returns the unrecognized-operator error, whose
payload is the offending operator slot, exactly when the configured operator
is none of CONCAT, HADAMARD, AVERAGE (with the closed `EdgeOperator` enum of
`constants.py`, exactly when it is unset). -/
theorem edge_embeddings_unknown_operator (ev : Evaluator) (ext : Externals)
    (st : PipeState) (ty : SampleType) :
    (get_edge_embeddings ev ext st ty).1
        = Except.error (EvalError.unknownOperator ev.embedding_operator)
      ↔ (ev.embedding_operator ≠ some EdgeOperator.CONCAT
         ∧ ev.embedding_operator ≠ some EdgeOperator.HADAMARD
         ∧ ev.embedding_operator ≠ some EdgeOperator.AVERAGE) := by
  rcases ho : ev.embedding_operator with _ | op
  · simp [get_edge_embeddings, ho]
  · cases op <;> simp [get_edge_embeddings, ho]

/-- C3: `get_roc_auc_score` returns the configuration error exactly when the
classifier or the edge operator is unset, and in that case returns before any
computation: the state (samples cache, model fit state, classifier fit state,
all call counters) is untouched. -/
theorem roc_auc_config_guard (ev : Evaluator) (ext : Externals)
    (st : PipeState) :
    ((get_roc_auc_score ev ext st).1 = Except.error EvalError.configError
      ↔ ev.classifier = none ∨ ev.embedding_operator = none)
    ∧ ((ev.classifier = none ∨ ev.embedding_operator = none) →
        (get_roc_auc_score ev ext st).2 = st) := by
  rcases hc : ev.classifier with _ | c
  · simp [get_roc_auc_score, hc]
  · rcases ho : ev.embedding_operator with _ | op
    · simp [get_roc_auc_score, hc, ho]
    · simp only [get_roc_auc_score, hc, ho, Option.isNone_some, Bool.or_self,
        Bool.false_eq_true, if_false, get_edge_embeddings]
      simp [get_edge_embeddings, ho]

/-- Witness for C3 second part at a concrete unset-classifier evaluator. -/
theorem roc_auc_config_guard_witness :
    (evC.classifier = none ∨ evC.embedding_operator = none)
    ∧ (get_roc_auc_score evC extC initState).2 = initState :=
  ⟨Or.inl rfl,
   (roc_auc_config_guard evC extC initState).2 (Or.inl rfl)⟩

/-- C10: when the edge operator is unset, `get_edge_embeddings` raises the
unrecognized-operator error, but only after the shared embedding model has
already been refit (one more `fit` call, its state now the train or test
subgraph): the failing call is not atomic in the model state. -/
theorem edge_embeddings_fit_before_dispatch (ev : Evaluator) (ext : Externals)
    (st : PipeState) (ty : SampleType) (h : ev.embedding_operator = none) :
    (get_edge_embeddings ev ext st ty).1
        = Except.error (EvalError.unknownOperator none)
    ∧ (get_edge_embeddings ev ext st ty).2.modelFitCalls
        = st.modelFitCalls + 1
    ∧ (get_edge_embeddings ev ext st ty).2.fittedOn
        = some (match ty with
            | SampleType.TRAIN => (samplesProp ev ext st).1.G_train
            | SampleType.TEST => (samplesProp ev ext st).1.G_test) := by
  cases ty <;> rcases hsc : st.samplesCache with _ | b <;>
    simp [get_edge_embeddings, h, stateAfterSelect, get_node_embeddings,
      samplesProp, modelFit, bundleTruthy, hsc]

/-- Witness for C10 at the concrete operator-less evaluator `evC`. -/
theorem edge_embeddings_fit_before_dispatch_witness :
    evC.embedding_operator = none
    ∧ ((get_edge_embeddings evC extC initState SampleType.TRAIN).1
          = Except.error (EvalError.unknownOperator none)
        ∧ (get_edge_embeddings evC extC initState SampleType.TRAIN).2.modelFitCalls
          = initState.modelFitCalls + 1
        ∧ (get_edge_embeddings evC extC initState SampleType.TRAIN).2.fittedOn
          = some (match SampleType.TRAIN with
              | SampleType.TRAIN => (samplesProp evC extC initState).1.G_train
              | SampleType.TEST => (samplesProp evC extC initState).1.G_test)) :=
  ⟨rfl, edge_embeddings_fit_before_dispatch evC extC initState SampleType.TRAIN rfl⟩

/-- C4: for a configured operator, `get_edge_embeddings` succeeds and its
output is the edge-id sequence mapped through the operator (hence positionally
aligned and of equal length); each edge vector has dimension 2d for CONCAT
and d for HADAMARD and AVERAGE, given node embeddings whose rows all have
dimension d and in-range edge ids. -/
theorem edge_embeddings_shape (ev : Evaluator) (ext : Externals)
    (st : PipeState) (ty : SampleType) (op : EdgeOperator) (d : ℕ)
    (hop : ev.embedding_operator = some op)
    (hrows : ∀ r ∈ nodeEmbeddingsOf ev ext st ty, r.length = d)
    (hids : ∀ e ∈ edgeIdsOf ev ext st ty,
      e.1 < (nodeEmbeddingsOf ev ext st ty).length
        ∧ e.2 < (nodeEmbeddingsOf ev ext st ty).length) :
    (get_edge_embeddings ev ext st ty).1
      = Except.ok ((edgeIdsOf ev ext st ty).map
          (opApply op (nodeEmbeddingsOf ev ext st ty)))
    ∧ ((edgeIdsOf ev ext st ty).map
        (opApply op (nodeEmbeddingsOf ev ext st ty))).length
        = (edgeIdsOf ev ext st ty).length
    ∧ ∀ e ∈ edgeIdsOf ev ext st ty,
        (opApply op (nodeEmbeddingsOf ev ext st ty) e).length
          = (match op with
             | EdgeOperator.CONCAT => 2 * d
             | EdgeOperator.HADAMARD => d
             | EdgeOperator.AVERAGE => d) := by
  refine ⟨by simp [get_edge_embeddings, hop], List.length_map _ _, ?_⟩
  intro e he
  obtain ⟨h1, h2⟩ := hids e he
  have r1 : ((nodeEmbeddingsOf ev ext st ty).getD e.1 []).length = d := by
    rw [List.getD_eq_getElem _ _ h1]
    exact hrows _ (List.getElem_mem h1)
  have r2 : ((nodeEmbeddingsOf ev ext st ty).getD e.2 []).length = d := by
    rw [List.getD_eq_getElem _ _ h2]
    exact hrows _ (List.getElem_mem h2)
  cases op
  · simp only [opApply, concatOp, List.length_append, r1, r2]
    omega
  · simp only [opApply, hadamardOp, List.length_zipWith, r1, r2, min_self]
  · simp only [opApply, averageOp, List.length_zipWith, r1, r2, min_self]

/-- Witness for C4: evaluator `evD` (CONCAT) with the 2 × 2 embedding matrix
`smallEmb` and the single train edge (0, 1) of `bundle0`. -/
theorem edge_embeddings_shape_witness :
    evD.embedding_operator = some EdgeOperator.CONCAT
    ∧ (∀ r ∈ nodeEmbeddingsOf evD extD initState SampleType.TRAIN,
        r.length = 2)
    ∧ (∀ e ∈ edgeIdsOf evD extD initState SampleType.TRAIN,
        e.1 < (nodeEmbeddingsOf evD extD initState SampleType.TRAIN).length
          ∧ e.2 < (nodeEmbeddingsOf evD extD initState SampleType.TRAIN).length)
    ∧ ((get_edge_embeddings evD extD initState SampleType.TRAIN).1
        = Except.ok ((edgeIdsOf evD extD initState SampleType.TRAIN).map
            (opApply EdgeOperator.CONCAT
              (nodeEmbeddingsOf evD extD initState SampleType.TRAIN)))
      ∧ ((edgeIdsOf evD extD initState SampleType.TRAIN).map
          (opApply EdgeOperator.CONCAT
            (nodeEmbeddingsOf evD extD initState SampleType.TRAIN))).length
          = (edgeIdsOf evD extD initState SampleType.TRAIN).length
      ∧ ∀ e ∈ edgeIdsOf evD extD initState SampleType.TRAIN,
          (opApply EdgeOperator.CONCAT
            (nodeEmbeddingsOf evD extD initState SampleType.TRAIN) e).length
            = (match EdgeOperator.CONCAT with
               | EdgeOperator.CONCAT => 2 * 2
               | EdgeOperator.HADAMARD => 2
               | EdgeOperator.AVERAGE => 2)) :=
  ⟨rfl, by decide, by decide,
   edge_embeddings_shape evD extD initState SampleType.TRAIN
     EdgeOperator.CONCAT 2 rfl (by decide) (by decide)⟩

/-- Helper: when the flattened masked matrix has at least 100 entries, the
selection keeps exactly 100 flat indices. -/
theorem topIndices_length (n : ℕ) (sim : ℕ → ℕ → ℚ) (h : 100 ≤ n * n) :
    (topIndices n sim).length = 100 := by
  unfold topIndices
  rw [List.length_take, (List.perm_insertionSort _ _).length_eq,
    List.length_range]
  exact Nat.min_eq_left h

/-- Helper: when the matrix has exactly 100 flat positions (a 10-node graph),
the selection keeps every flat index, masked or not. -/
theorem topIndices_mem_of_sq_100 (n : ℕ) (sim : ℕ → ℕ → ℚ)
    (h : n * n = 100) (k : ℕ) (hk : k < 100) : k ∈ topIndices n sim := by
  unfold topIndices
  rw [List.take_of_length_le]
  · exact ((List.perm_insertionSort _ _).mem_iff).mpr
      (List.mem_range.mpr (by rw [h]; exact hk))
  · rw [(List.perm_insertionSort _ _).length_eq, List.length_range, h]

/-- Helper: if at least 100 entries of the flattened masked matrix are
strictly positive, every selected flat index has a strictly positive masked
value. -/
theorem topIndices_pos (n : ℕ) (sim : ℕ → ℕ → ℚ)
    (hpos : 100 ≤ (List.range (n * n)).countP
      (fun k => decide (0 < maskedRavel n sim k))) :
    ∀ k ∈ topIndices n sim, 0 < maskedRavel n sim k := by
  intro k hk
  set v := maskedRavel n sim with hv
  set P : ℕ → Bool := fun k => decide (0 < v k) with hP
  set l := List.insertionSort (rankRel v) (List.range (n * n)) with hl
  have hsorted : l.Sorted (rankRel v) := List.sorted_insertionSort _ _
  have hperm : List.Perm l (List.range (n * n)) := List.perm_insertionSort _ _
  have hcount : 100 ≤ l.countP P := by
    rw [hperm.countP_eq]
    exact hpos
  have hsq : 100 ≤ n * n := by
    calc 100 ≤ (List.range (n * n)).countP P := hpos
    _ ≤ (List.range (n * n)).length := List.countP_le_length P
    _ = n * n := List.length_range _
  by_contra hknp
  have hkP : P k = false := by simp [hP, hknp]
  have hsplit : l = l.take 100 ++ l.drop 100 := (List.take_append_drop _ _).symm
  have hpw : List.Pairwise (rankRel v) (l.take 100 ++ l.drop 100) := by
    rw [← hsplit]
    exact hsorted
  have hcross := (List.pairwise_append.mp hpw).2.2
  have hdrop : ∀ b ∈ l.drop 100, ¬ (P b = true) := by
    intro b hb hbP
    have hrel := hcross k hk b hb
    have hvb : v b ≤ v k := by
      rcases hrel with hlt | ⟨heq, _⟩
      · exact le_of_lt hlt
      · exact le_of_eq heq.symm
    have h0b : 0 < v b := by simpa [hP] using hbP
    exact hknp (lt_of_lt_of_le h0b hvb)
  have hdrop0 : (l.drop 100).countP P = 0 := by
    rw [List.countP_eq_zero]
    exact hdrop
  have htklen : (l.take 100).length = 100 := by
    rw [List.length_take, hperm.length_eq, List.length_range]
    exact Nat.min_eq_left hsq
  have htkne : (l.take 100).countP P ≠ (l.take 100).length := by
    intro hEq
    have hall := List.countP_eq_length.mp hEq k hk
    rw [hkP] at hall
    exact Bool.false_ne_true hall
  have htkle : (l.take 100).countP P ≤ (l.take 100).length :=
    List.countP_le_length P
  have hsum : l.countP P = (l.take 100).countP P + (l.drop 100).countP P := by
    conv_lhs => rw [hsplit]
    exact List.countP_append _ _ _
  omega

/-- C1 (amended): whenever at least 100 entries of the masked (strict
lower-triangle) similarity matrix are strictly positive, every ranked pair
`(i, j)` of the top-100 selection lies strictly below the diagonal
(`i > j`); this holds for the similarity matrix of any measure. -/
theorem precision_pairs_strict_lower (n : ℕ) (sim : ℕ → ℕ → ℚ)
    (hpos : 100 ≤ (List.range (n * n)).countP
      (fun k => decide (0 < maskedRavel n sim k))) :
    ∀ p ∈ top100PairsList n sim, p.2 < p.1 := by
  intro p hp
  unfold top100PairsList at hp
  obtain ⟨k, hk, rfl⟩ := List.mem_map.mp hp
  have h0 := topIndices_pos n sim hpos k hk
  by_contra hnot
  have hnot2 : ¬ (k % n < k / n) := hnot
  have hzero : maskedRavel n sim k = 0 := by
    unfold maskedRavel trilStrict
    exact if_neg hnot2
  rw [hzero] at h0
  exact lt_irrefl 0 h0

set_option maxRecDepth 40000 in
/-- Witness for C1 (amended): a 15-node constant-similarity matrix has
15·14/2 = 105 ≥ 100 strictly positive masked entries, and every ranked pair
is strictly below the diagonal. -/
theorem precision_pairs_strict_lower_witness :
    (100 ≤ (List.range (15 * 15)).countP
      (fun k => decide (0 < maskedRavel 15 (fun _ _ => (1 : ℚ)) k)))
    ∧ ∀ p ∈ top100PairsList 15 (fun _ _ => (1 : ℚ)), p.2 < p.1 :=
  ⟨by decide, precision_pairs_strict_lower 15 (fun _ _ => (1 : ℚ)) (by decide)⟩

/-- Counterexample to C1 as stated: in the 10-node scenario with the fixed
10 × 4 (zero) embedding matrix under HAMMING, the call returns, yet the
self-pair (0, 0) — a flat position zeroed by the mask — is among the 100
ranked pairs scored against `has_edge`, and (0, 0) is not strictly below the
diagonal. -/
theorem precision_pairs_cex :
    (∃ q st2, get_precision_at_100 evC extC initState SimilarityMeasure.HAMMING
        = (Except.ok q, st2))
    ∧ (0, 0) ∈ top100PairsList (nodeEmbeddingsFull evC extC initState).length
        (simOf SimilarityMeasure.HAMMING extC
          (nodeEmbeddingsFull evC extC initState))
    ∧ ¬ ((0 : ℕ) > 0) := by
  refine ⟨⟨_, _, rfl⟩, ?_, by omega⟩
  have hn : (nodeEmbeddingsFull evC extC initState).length = 10 := by decide
  rw [hn]
  exact List.mem_map.mpr
    ⟨0, topIndices_mem_of_sq_100 10 _ (by norm_num) 0 (by norm_num), rfl⟩

/-- Counterexample to C2 as stated: in the 10-node scenario (fixed 10 × 4
embedding matrix, HAMMING), the top-100 selection does not clamp to the 45
below-diagonal pairs — it selects 100 pairs (every flat position of the
10 × 10 matrix). -/
theorem precision_no_clamp_cex :
    (top100PairsList (nodeEmbeddingsFull evC extC initState).length
        (simOf SimilarityMeasure.HAMMING extC
          (nodeEmbeddingsFull evC extC initState))).length ≠ 45 := by
  have hn : (nodeEmbeddingsFull evC extC initState).length = 10 := by decide
  rw [hn]
  have h : (top100PairsList 10 (simOf SimilarityMeasure.HAMMING extC
      (nodeEmbeddingsFull evC extC initState))).length = 100 := by
    unfold top100PairsList
    rw [List.length_map]
    exact topIndices_length 10 _ (by norm_num)
  omega

/-- C2 (amended): in the 10-node scenario the masked lower triangle has
exactly 45 = (10 choose 2) positions eligible to be nonzero, but the top-100
selection does not clamp to 45: it selects exactly 100 ranked pairs (all
positions of the 10 × 10 matrix, masked ones included); and when the matrix
has fewer than 100 total entries (9 or fewer nodes), the partial selection
raises instead of clamping. -/
theorem precision_no_clamp :
    ((List.range (10 * 10)).countP (fun k => decide (k % 10 < k / 10))
        = Nat.choose 10 2)
    ∧ (top100PairsList (nodeEmbeddingsFull evC extC initState).length
        (simOf SimilarityMeasure.HAMMING extC
          (nodeEmbeddingsFull evC extC initState))).length = 100
    ∧ top100Pairs 9 (fun _ _ => (1 : ℚ))
        = Except.error EvalError.argpartitionOutOfRange := by
  refine ⟨by decide, ?_, by rfl⟩
  have hn : (nodeEmbeddingsFull evC extC initState).length = 10 := by decide
  rw [hn]
  unfold top100PairsList
  rw [List.length_map]
  exact topIndices_length 10 _ (by norm_num)


/-- C8: whenever `get_precision_at_100` returns, its value is the number of
ranked pairs that are edges of the original full graph divided by 100; the
ranked list has exactly 100 pairs, so the value is k/100 for some k ≤ 100. -/
theorem precision_score_is_fraction (ev : Evaluator) (ext : Externals)
    (st : PipeState) (m : SimilarityMeasure) (q : ℚ) (st2 : PipeState)
    (h : get_precision_at_100 ev ext st m = (Except.ok q, st2)) :
    ∃ pairs : List (ℕ × ℕ),
      top100Pairs (nodeEmbeddingsFull ev ext st).length
          (simOf m ext (nodeEmbeddingsFull ev ext st)) = Except.ok pairs
      ∧ pairs.length = 100
      ∧ q = ((pairs.countP (fun p => ev.graph.has_edge p.1 p.2) : ℕ) : ℚ) / 100
      ∧ ∃ k : ℕ, k ≤ 100 ∧ q = (k : ℚ) / 100 := by
  have hsplit : get_precision_at_100 ev ext st m
      = (match top100Pairs (nodeEmbeddingsFull ev ext st).length
            (simOf m ext (nodeEmbeddingsFull ev ext st)) with
         | Except.error e =>
             (Except.error e, (get_node_embeddings ev ext st none).2)
         | Except.ok pairs =>
             (Except.ok
               (((pairs.countP (fun p => ev.graph.has_edge p.1 p.2) : ℕ) : ℚ)
                 / 100),
              (get_node_embeddings ev ext st none).2)) := rfl
  by_cases hlt : (nodeEmbeddingsFull ev ext st).length
      * (nodeEmbeddingsFull ev ext st).length < 100
  · have htop : top100Pairs (nodeEmbeddingsFull ev ext st).length
        (simOf m ext (nodeEmbeddingsFull ev ext st))
        = Except.error EvalError.argpartitionOutOfRange := by
      unfold top100Pairs
      rw [if_pos hlt]
    rw [hsplit, htop] at h
    simp at h
  · have htop : top100Pairs (nodeEmbeddingsFull ev ext st).length
        (simOf m ext (nodeEmbeddingsFull ev ext st))
        = Except.ok (top100PairsList (nodeEmbeddingsFull ev ext st).length
            (simOf m ext (nodeEmbeddingsFull ev ext st))) := by
      unfold top100Pairs
      rw [if_neg hlt]
    rw [hsplit, htop] at h
    rw [Prod.mk.injEq] at h
    have hq := Except.ok.inj h.1
    have hlen : (top100PairsList (nodeEmbeddingsFull ev ext st).length
        (simOf m ext (nodeEmbeddingsFull ev ext st))).length = 100 := by
      unfold top100PairsList
      rw [List.length_map]
      exact topIndices_length _ _ (Nat.not_lt.mp hlt)
    refine ⟨top100PairsList (nodeEmbeddingsFull ev ext st).length
        (simOf m ext (nodeEmbeddingsFull ev ext st)), htop, hlen, hq.symm,
      (top100PairsList (nodeEmbeddingsFull ev ext st).length
        (simOf m ext (nodeEmbeddingsFull ev ext st))).countP
        (fun p => ev.graph.has_edge p.1 p.2), ?_, hq.symm⟩
    have h1 : (top100PairsList (nodeEmbeddingsFull ev ext st).length
        (simOf m ext (nodeEmbeddingsFull ev ext st))).countP
        (fun p => ev.graph.has_edge p.1 p.2)
        ≤ (top100PairsList (nodeEmbeddingsFull ev ext st).length
          (simOf m ext (nodeEmbeddingsFull ev ext st))).length :=
      List.countP_le_length _
    rw [hlen] at h1
    exact h1

/-- Witness for C8 at the 10-node concrete scenario, where the call returns
a value of the form k/100 with k ≤ 100. -/
theorem precision_score_is_fraction_witness :
    get_precision_at_100 evC extC initState SimilarityMeasure.HAMMING
      = (Except.ok ((((top100PairsList 10 (hammingSim zeroEmb)).countP
            (fun p => g10.has_edge p.1 p.2) : ℕ) : ℚ) / 100),
         modelFit initState g10)
    ∧ ∃ k : ℕ, k ≤ 100
        ∧ (((top100PairsList 10 (hammingSim zeroEmb)).countP
            (fun p => g10.has_edge p.1 p.2) : ℕ) : ℚ) / 100 = (k : ℚ) / 100 := by
  have hEq : get_precision_at_100 evC extC initState SimilarityMeasure.HAMMING
      = (Except.ok ((((top100PairsList 10 (hammingSim zeroEmb)).countP
            (fun p => g10.has_edge p.1 p.2) : ℕ) : ℚ) / 100),
         modelFit initState g10) := rfl
  refine ⟨hEq, ?_⟩
  obtain ⟨pairs, hpairs, hlen, hq, k, hk, hq2⟩ :=
    precision_score_is_fraction evC extC initState SimilarityMeasure.HAMMING
      _ _ hEq
  rw [hq] at hq2
  have hpairs2 : pairs = top100PairsList 10 (hammingSim zeroEmb) := by
    have hx : top100Pairs 10 (hammingSim zeroEmb)
        = Except.ok (top100PairsList 10 (hammingSim zeroEmb)) := rfl
    have hy : top100Pairs (nodeEmbeddingsFull evC extC initState).length
        (simOf SimilarityMeasure.HAMMING extC
          (nodeEmbeddingsFull evC extC initState))
        = Except.ok (top100PairsList 10 (hammingSim zeroEmb)) := hx
    rw [hy] at hpairs
    exact (Except.ok.inj hpairs).symm
  rw [hpairs2] at hq2
  exact ⟨k, hk, hq2⟩
